import Mathlib

/-!
Verification of `restore_cocos_assets.py` against its natural-language
specification.  The Python program is shallowly embedded: JSON documents
become the inductive type `JVal`, Python's duck-typed probing becomes
explicit pattern matching, Python exceptions become `Except Unit`, and
Python `float` values are modelled as exact rationals.  Machine-level
bit operations (`& 0x3FFF`, `>> 6`, ...) are written with `%`, `/` and
`*` on `Nat`, which agree with the source on byte-sized inputs.
-/

/-- A JSON document as produced by `json.loads`: Python `int`, `float`,
`bool`, `str`, `None`, `list` and `dict` (modelled as an association
list; lookups take the last binding, matching `json.loads` semantics
for duplicate keys). -/
inductive JVal where
  | int (n : Int)
  | float (q : Rat)
  | bool (b : Bool)
  | str (s : String)
  | null
  | arr (xs : List JVal)
  | obj (kvs : List (String × JVal))

/-- Python truthiness (`bool(x)`) for JSON values. -/
def truthy : JVal → Bool
  | .int n => n != 0
  | .float q => q != 0
  | .bool b => b
  | .str s => s != ""
  | .null => false
  | .arr xs => !xs.isEmpty
  | .obj kvs => !kvs.isEmpty

/-- Python `isinstance(x, (int, float))`.  `bool` is a subclass of `int`
in Python, so booleans count as numbers. -/
def pyIsNum : JVal → Bool
  | .int _ => true
  | .float _ => true
  | .bool _ => true
  | _ => false

/-- Numeric value of a JSON number (`float(x)` on an `int`/`float`/`bool`). -/
def numVal : JVal → Rat
  | .int n => (n : Rat)
  | .float q => q
  | .bool b => if b then 1 else 0
  | _ => 0

/-- Python `isinstance(x, int)`: `int` or `bool`. -/
def pyIsIntLike : JVal → Bool
  | .int _ => true
  | .bool _ => true
  | _ => false

/-- Integer value of an `int`-like JSON value. -/
def intVal : JVal → Int
  | .int n => n
  | .bool b => if b then 1 else 0
  | _ => 0

/-- Python `x == m` for an integer literal `m`: numbers compare by value
(`6 == 6.0` and `False == 0` are true), all other types are unequal. -/
def pyEqInt (v : JVal) (m : Int) : Bool :=
  match v with
  | .int n => n == m
  | .float q => q == (m : Rat)
  | .bool b => (if b then (1 : Int) else 0) == m
  | _ => false

/-- Python `x == s` for a string literal `s`. -/
def pyEqStr (v : JVal) (s : String) : Bool :=
  match v with
  | .str t => t == s
  | _ => false

/-- Is the value a JSON string? -/
def isStr : JVal → Bool
  | .str _ => true
  | _ => false

/-- Is the value a JSON sequence? -/
def isArr : JVal → Bool
  | .arr _ => true
  | _ => false

/-- Last-binding lookup in a JSON object, the value a Python dict built
by `json.loads` would hold. -/
def objGet? (kvs : List (String × JVal)) (k : String) : Option JVal :=
  kvs.foldl (fun acc p => if p.1 == k then some p.2 else acc) none

/-- Python `d.get(k, default)`. -/
def objGetD (kvs : List (String × JVal)) (k : String) (d : JVal) : JVal :=
  (objGet? kvs k).getD d

/-- Python `k in d`. -/
def objHas (kvs : List (String × JVal)) (k : String) : Bool :=
  (objGet? kvs k).isSome

/-- Truncation of a rational toward zero, the behaviour of Python
`int(float)`. -/
def ratTrunc (q : Rat) : Int :=
  if 0 ≤ q then ⌊q⌋ else -⌊-q⌋

/-- Python `int(x)` as a fallible conversion: numbers truncate, numeric
strings parse, everything else raises (`Except.error`). -/
def pyInt : JVal → Except Unit Int
  | .int n => .ok n
  | .float q => .ok (ratTrunc q)
  | .bool b => .ok (if b then 1 else 0)
  | .str s => match s.toInt? with
      | some n => .ok n
      | none => .error ()
  | _ => .error ()

/-- Python subscription `x[i]` for a non-negative index: list indexing
(IndexError out of range), string indexing (a one-character string), and
a raised exception for every other receiver. -/
def pyIndex : JVal → Nat → Except Unit JVal
  | .arr xs, i => match xs.get? i with
      | some v => .ok v
      | none => .error ()
  | .str s, i => match s.data.get? i with
      | some c => .ok (.str (String.mk [c]))
      | none => .error ()
  | _, _ => .error ()

/-- Normalized rectangle `{x,y,w,h}`. -/
structure RectI where
  x : Int
  y : Int
  w : Int
  h : Int
deriving DecidableEq, Repr

/-- Normalized pair `{x,y}`. -/
structure PairI where
  x : Int
  y : Int
deriving DecidableEq, Repr

/-- Embedding of `parse_rect` (restore_cocos_assets.py lines 429-434):
non-lists normalize to zeros; a list whose head is itself a list is read
as a nested pair-of-pairs, otherwise as a flat 4-element sequence.  Any
failing subscript or integer conversion raises. -/
def parse_rect (rect : JVal) : Except Unit RectI :=
  match rect with
  | .arr xs =>
    if !xs.isEmpty && isArr (xs.headD .null) then do
      let r0 ← pyIndex (.arr xs) 0
      let r1 ← pyIndex (.arr xs) 1
      let x ← pyInt (← pyIndex r0 0)
      let y ← pyInt (← pyIndex r0 1)
      let w ← pyInt (← pyIndex r1 0)
      let h ← pyInt (← pyIndex r1 1)
      return ⟨x, y, w, h⟩
    else do
      let x ← pyInt (← pyIndex (.arr xs) 0)
      let y ← pyInt (← pyIndex (.arr xs) 1)
      let w ← pyInt (← pyIndex (.arr xs) 2)
      let h ← pyInt (← pyIndex (.arr xs) 3)
      return ⟨x, y, w, h⟩
  | _ => .ok ⟨0, 0, 0, 0⟩

/-- Embedding of `parse_pair` (lines 437-440): non-lists normalize to
zeros; lists are read as a flat 2-element numeric sequence with no
nested-pair handling. -/
def parse_pair (pair : JVal) : Except Unit PairI :=
  match pair with
  | .arr xs => do
      let x ← pyInt (← pyIndex (.arr xs) 0)
      let y ← pyInt (← pyIndex (.arr xs) 1)
      return ⟨x, y⟩
  | _ => .ok ⟨0, 0⟩

/-- One keyframe record as built by `parse_animation_clip`:
`{"time": t, "uuid": u, "uuid_index": i}`. -/
structure KeyFrame where
  time : Option Rat
  uuid : Option String
  uuid_index : Option Int
deriving DecidableEq, Repr

/-- One track: `{"type": "spriteFrame", "frames": [...]}`. -/
structure Track where
  type : String
  frames : List KeyFrame
deriving DecidableEq, Repr

/-- One animation clip record as built by `parse_animation_clip`. -/
structure Clip where
  name : String
  duration : Rat
  sample : Option Rat
  tracks : List Track
deriving DecidableEq, Repr

/-- The document-scoped identifier table of `parse_animation_clip`
(lines 247-249): the string elements of the document's second top-level
element when the root is a list of length at least 2 whose second
element is a list; otherwise empty. -/
def uuidsOf (data : JVal) : List String :=
  match data with
  | .arr xs =>
    if 1 < xs.length then
      match xs.getD 1 .null with
      | .arr ys => ys.filterMap (fun v => match v with | .str s => some s | _ => none)
      | _ => []
    else []
  | _ => []

/-- Bounds-checked identifier resolution (line 286):
`uuids[idx] if (idx is not None and 0 <= idx < len(uuids)) else None`. -/
def resolve_uuid (uuids : List String) (idx : Option Int) : Option String :=
  match idx with
  | some i => if 0 ≤ i ∧ i < (uuids.length : Int) then uuids.get? i.toNat else none
  | none => none

/-- Scan for a literal `6` immediately followed by an `int` element
(lines 282-285); the scan starts at element index 1, so it is applied to
the tail of the keyframe record. -/
def findIdx6 : List JVal → Option Int
  | a :: b :: rest =>
      if pyEqInt a 6 && pyIsIntLike b then some (intVal b) else findIdx6 (b :: rest)
  | _ => none

/-- Recognize one keyframe record (lines 272-287): a list of length at
least 4 whose head is a map containing `"frame"` and which contains a
literal `"value"` element; the time is the numeric `"frame"` field and
the identifier index is found by `findIdx6`. -/
def keyframeOf (uuids : List String) (entry : JVal) : Option KeyFrame :=
  match entry with
  | .arr es =>
    match es.getD 0 .null with
    | .obj kvs =>
      if 4 ≤ es.length ∧ objHas kvs "frame" ∧ es.any (fun x => pyEqStr x "value") then
        let fv := objGetD kvs "frame" .null
        let idx := findIdx6 (es.drop 1)
        some { time := if pyIsNum fv then some (numVal fv) else none
               uuid := resolve_uuid uuids idx
               uuid_index := idx }
      else none
    | _ => none
  | _ => none

/-- The clip-header pattern (lines 252-259): a list of length at least 3
with numeric element 0, string element 1, numeric element 2, and, when a
4th element exists, a numeric element 3. -/
def isClipHeader (xs : List JVal) : Bool :=
  decide (3 ≤ xs.length) &&
  pyIsNum (xs.getD 0 .null) &&
  isStr (xs.getD 1 .null) &&
  pyIsNum (xs.getD 2 .null) &&
  (decide (xs.length < 4) || pyIsNum (xs.getD 3 .null))

/-- The clip record opened by a matching header (lines 260-266). -/
def headerClip (xs : List JVal) : Clip :=
  { name := match xs.getD 1 .null with | .str s => s | _ => ""
    duration := numVal (xs.getD 2 .null)
    sample :=
      if 3 < xs.length && pyIsNum (xs.getD 3 .null)
      then some (numVal (xs.getD 3 .null)) else none
    tracks := [] }

mutual

/-- `collect_frames` (lines 269-290): on a list, gather the direct
keyframe-record matches, then recurse into every element. -/
def collectFrames (uuids : List String) : JVal → List KeyFrame
  | .arr n => n.filterMap (keyframeOf uuids) ++ collectFramesL uuids n
  | _ => []
termination_by v => sizeOf v

/-- Recursion of `collectFrames` over the elements of a list. -/
def collectFramesL (uuids : List String) : List JVal → List KeyFrame
  | [] => []
  | x :: xs => collectFrames uuids x ++ collectFramesL uuids xs
termination_by l => sizeOf l

end

/-- Append a track to the clip at position `i` (the mutation
`current["tracks"].append(...)` on a clip already in the results list). -/
def addTrack (clips : List Clip) (i : Nat) (tr : Track) : List Clip :=
  match clips.get? i with
  | some c => clips.set i { c with tracks := c.tracks ++ [tr] }
  | none => clips

mutual

/-- `find_clips` (lines 251-297).  State is passed explicitly: the list
of clips found so far, plus the index of the "current" clip (Python's
`current` variable, an alias into the results list).  A matching header
opens a new current clip before descent; a node containing the literal
`"spriteFrame"` contributes its collected keyframes as a track on the
current clip; only lists are traversed. -/
def fcV (uuids : List String) : JVal → Option Nat → List Clip → List Clip
  | .arr xs, cur, clips =>
      let hdr := isClipHeader xs
      let cur2 := if hdr then some clips.length else cur
      let clips2 := if hdr then clips ++ [headerClip xs] else clips
      let clips3 :=
        if xs.any (fun x => pyEqStr x "spriteFrame") then
          match cur2 with
          | some i =>
              let fs := collectFrames uuids (.arr xs)
              if fs.isEmpty then clips2 else addTrack clips2 i ⟨"spriteFrame", fs⟩
          | none => clips2
        else clips2
      fcL uuids xs cur2 clips3
  | _, _, clips => clips
termination_by v _ _ => sizeOf v

/-- Recursion of `fcV` over the children of a list node. -/
def fcL (uuids : List String) : List JVal → Option Nat → List Clip → List Clip
  | [], _, clips => clips
  | x :: xs, cur, clips => fcL uuids xs cur (fcV uuids x cur clips)
termination_by l _ _ => sizeOf l

end

/-- Embedding of `parse_animation_clip` (lines 245-300). -/
def parse_animation_clip (data : JVal) : List Clip :=
  fcV (uuidsOf data) data none []

/-- One collected sprite-frame record (lines 371-377): the `name`,
`rect`, `offset`, `originalSize` fields are kept as raw document values;
`rotated` is Python-truthiness of the `rotated` field (default false);
`offset` defaults to `[0, 0]`. -/
structure PyFrame where
  name : JVal
  rotated : Bool
  rect : JVal
  offset : JVal
  originalSize : JVal

mutual

/-- Embedding of `extract_sprite_frames` (lines 367-379): a pre-order
walk collecting every map whose `name`, `rect` and `originalSize`
fields are all truthy. -/
def extract_sprite_frames : JVal → List PyFrame
  | .arr xs => esfL xs
  | .obj kvs =>
      (if truthy (objGetD kvs "name" .null) && truthy (objGetD kvs "rect" .null)
          && truthy (objGetD kvs "originalSize" .null) then
        [{ name := objGetD kvs "name" .null
           rotated := truthy (objGetD kvs "rotated" (.bool false))
           rect := objGetD kvs "rect" .null
           offset := objGetD kvs "offset" (.arr [.int 0, .int 0])
           originalSize := objGetD kvs "originalSize" .null }]
      else []) ++ esfO kvs
  | _ => []
termination_by v => sizeOf v

/-- Walk of `extract_sprite_frames` over the elements of a list node. -/
def esfL : List JVal → List PyFrame
  | [] => []
  | x :: xs => extract_sprite_frames x ++ esfL xs
termination_by l => sizeOf l

/-- Walk of `extract_sprite_frames` over the values of a map node. -/
def esfO : List (String × JVal) → List PyFrame
  | [] => []
  | (_, v) :: xs => extract_sprite_frames v ++ esfO xs
termination_by l => sizeOf l

end

/-- Embedding of `guess_texture_uuid_compressed` (lines 382-385). -/
def guess_texture_uuid_compressed (data : JVal) : Option String :=
  match data with
  | .arr xs =>
    if 1 < xs.length then
      match xs.getD 1 .null with
      | .arr (v :: _) => match v with | .str s => some s | _ => none
      | _ => none
    else none
  | _ => none

/-- Is the value usable as a Python dict key?  Lists and dicts are
unhashable; using one as a key raises `TypeError`. -/
def hashableName : JVal → Bool
  | .arr _ => false
  | .obj _ => false
  | _ => true

/-- Python `==` between hashable JSON scalars, the equality a dict key
lookup uses: numbers (including booleans) compare by value across
types, strings by content, `None` only to itself. -/
def pyKeyEq (a b : JVal) : Bool :=
  match a, b with
  | .str x, .str y => x == y
  | .null, .null => true
  | x, y => pyIsNum x && pyIsNum y && numVal x == numVal y

/-- The keep-first dedup of lines 546-549 with Python's hashability
failure made explicit: inserting under an unhashable name raises. -/
def dedupAux (seen : List PyFrame) : List PyFrame → Except Unit (List PyFrame)
  | [] => .ok seen
  | fr :: rest =>
      if hashableName fr.name then
        if seen.any (fun s => pyKeyEq s.name fr.name) then dedupAux seen rest
        else dedupAux (seen ++ [fr]) rest
      else .error ()

/-- Keep-first dedup of a document's collected frames by `name` key. -/
def dedupFrames (l : List PyFrame) : Except Unit (List PyFrame) :=
  dedupAux [] l

/-- The total keep-first dedup, defined only for comparison: what
`dedupFrames` returns when every name is hashable. -/
def keepFirstAux (seen : List PyFrame) : List PyFrame → List PyFrame
  | [] => seen
  | fr :: rest =>
      if seen.any (fun s => pyKeyEq s.name fr.name) then keepFirstAux seen rest
      else keepFirstAux (seen ++ [fr]) rest

/-- Total keep-first dedup by `name` key. -/
def keepFirst (l : List PyFrame) : List PyFrame :=
  keepFirstAux [] l

/-- Normalization of one frame during plist emission (lines 579-581):
`parse_rect` on `rect`, `parse_pair` on `offset` and on `originalSize`;
any raised conversion error propagates. -/
def emit_frame (fr : PyFrame) : Except Unit (RectI × PairI × PairI) :=
  match parse_rect fr.rect with
  | .error e => .error e
  | .ok r =>
    match parse_pair fr.offset with
    | .error e => .error e
    | .ok off =>
      match parse_pair fr.originalSize with
      | .error e => .error e
      | .ok osz => .ok (r, off, osz)

/-- Normalization of all deduplicated frames of one atlas group, in
order (the loop at lines 578-587). -/
def emit_frames : List PyFrame → Except Unit (List (RectI × PairI × PairI))
  | [] => .ok []
  | fr :: rest =>
    match emit_frame fr with
    | .error e => .error e
    | .ok x =>
      match emit_frames rest with
      | .error e => .error e
      | .ok xs => .ok (x :: xs)

/-- The sequence-inference pass applies `re.match` to every frame name
(line 617); a non-string name raises `TypeError`. -/
def autoNamesOk : List PyFrame → Except Unit Unit
  | [] => .ok ()
  | fr :: rest => match fr.name with
      | .str _ => autoNamesOk rest
      | _ => .error ()

/-- The sprite-frame path of the batch for one import document: collect
frames (lines 541-542), gate on a non-empty guessed texture reference
and non-empty frame list (line 543), deduplicate by name (lines
546-549), normalize every kept frame for the plist (lines 578-587), and
apply the name-pattern scan of the auto-animation pass (lines 633-638).
An `Except.error` is an uncaught Python exception aborting the run. -/
def process_import_doc (doc : JVal) : Except Unit (List (RectI × PairI × PairI)) :=
  match guess_texture_uuid_compressed doc with
  | some u =>
      if u != "" && !(extract_sprite_frames doc).isEmpty then
        match dedupFrames (extract_sprite_frames doc) with
        | .error e => .error e
        | .ok ded =>
          match emit_frames ded with
          | .error e => .error e
          | .ok es =>
            match autoNamesOk ded with
            | .error e => .error e
            | .ok _ => .ok es
      else .ok []
  | none => .ok []

/-- The raw (unfiltered) identifier list used by the skeleton branch
(line 499): the document's second top-level element when it is a list,
else empty. -/
def spineUuids (data : JVal) : List JVal :=
  match data with
  | .arr xs =>
    if 1 < xs.length then
      match xs.getD 1 .null with
      | .arr ys => ys
      | _ => []
    else []
  | _ => []

/-- Skeleton-bundle texture reference selection (lines 511-515): when
the identifier list is non-empty, take the first texture-index hint if
it is an `int` (else 0) and return the identifier at that index, or the
identifier at index 0 when the index is out of range; `none` when the
identifier list is empty. -/
def skeleton_texture_uuid (uuids : List JVal) (textureIndices : JVal) : Option JVal :=
  if uuids.isEmpty then none
  else
    let idx : Int :=
      match textureIndices with
      | .arr (t :: _) => if pyIsIntLike t then intVal t else 0
      | _ => 0
    if 0 ≤ idx ∧ idx < (uuids.length : Int) then uuids.get? idx.toNat
    else uuids.get? 0

/-- Python byte-string slice `buf[a:b]` (never raises; clamps at the
end). -/
def sliceBytes (buf : List Nat) (a b : Nat) : List Nat :=
  (buf.drop a).take (b - a)

/-- Little-endian `int.from_bytes`. -/
def fromLE (bs : List Nat) : Nat :=
  bs.foldr (fun b acc => b + 256 * acc) 0

/-- The `RIFF` tag bytes. -/
def riffTag : List Nat := [82, 73, 70, 70]

/-- The `WEBP` FourCC bytes. -/
def webpTag : List Nat := [87, 69, 66, 80]

/-- The `VP8X` FourCC bytes. -/
def vp8xTag : List Nat := [86, 80, 56, 88]

/-- The `VP8 ` FourCC bytes. -/
def vp8Tag : List Nat := [86, 80, 56, 32]

/-- The `VP8L` FourCC bytes. -/
def vp8lTag : List Nat := [86, 80, 56, 76]

/-- The sub-chunk loop of `read_webp_size` (lines 141-164).  `fuel`
bounds the iteration count; since each step advances the offset by at
least 8 while the guard needs `off + 8 <= len`, `len + 1` iterations
always suffice.  Bit operations are written arithmetically:
`x & 0x3FFF` is `x % 16384`, `b >> 6` is `b / 64`, `b & 0x3F` is
`b % 64`, `b & 0x03` is `b % 4`, and `(size + 1) & ~1` is
`((size + 1) / 2) * 2`; ORs of disjoint bit ranges are sums. -/
def webpChunks (buf : List Nat) : Nat → Nat → Option (Nat × Nat)
  | 0, _ => none
  | fuel + 1, off =>
    if off + 8 ≤ buf.length then
      let chunk := sliceBytes buf off (off + 4)
      let size := fromLE (sliceBytes buf (off + 4) (off + 8))
      let ds := off + 8
      if chunk = vp8xTag then
        some (fromLE (sliceBytes buf (ds + 4) (ds + 7)) + 1,
              fromLE (sliceBytes buf (ds + 7) (ds + 10)) + 1)
      else if chunk = vp8Tag ∧ 10 ≤ size ∧
          sliceBytes buf (ds + 3) (ds + 6) = [157, 1, 42] then
        some (fromLE (sliceBytes buf (ds + 6) (ds + 8)) % 16384,
              fromLE (sliceBytes buf (ds + 8) (ds + 10)) % 16384)
      else if chunk = vp8lTag ∧ 5 ≤ size then
        match buf.get? ds with
        | none => none
        | some b0 =>
          if b0 = 47 then
            match buf.get? (ds + 1), buf.get? (ds + 2),
                  buf.get? (ds + 3), buf.get? (ds + 4) with
            | some b1, some b2, some b3, some b4 =>
                some (b1 + (b2 % 64) * 256 + 1,
                      b2 / 64 + b3 * 4 + (b4 % 4) * 1024 + 1)
            | _, _, _, _ => none
          else webpChunks buf fuel (ds + ((size + 1) / 2) * 2)
      else webpChunks buf fuel (ds + ((size + 1) / 2) * 2)
    else none

/-- Embedding of `read_webp_size` (lines 132-167) over a byte buffer:
check the 12-byte RIFF/WEBP header, then iterate sub-chunks. -/
def read_webp_size (buf : List Nat) : Option (Nat × Nat) :=
  if 12 ≤ buf.length ∧ sliceBytes buf 0 4 = riffTag ∧ sliceBytes buf 8 12 = webpTag
  then webpChunks buf (buf.length + 1) 12
  else none

/-- The ASCII whitespace characters matched by Python `\s` and stripped
by `str.strip()`. -/
def isPySpace (c : Char) : Bool :=
  c = ' ' || c = '\t' || c = '\n' || c = '\x0d' || c = '\x0b' || c = '\x0c'

/-- The separator class `[_\-\s]` of the suffix regex. -/
def isSepChar (c : Char) : Bool :=
  c = '_' || c = '-' || isPySpace c

/-- Can `rest` complete the match `(?:[_\-\s]?)(\d{1,4})$`?  If so,
return the captured digit characters.  A leading separator character is
consumed when present; the remainder must be 1 to 4 digits reaching the
end of the string. -/
def tailDigits (rest : List Char) : Option (List Char) :=
  match rest with
  | [] => none
  | c :: rest2 =>
      if isSepChar c then
        if !rest2.isEmpty && rest2.length ≤ 4 && rest2.all Char.isDigit
        then some rest2 else none
      else
        if (c :: rest2).length ≤ 4 && (c :: rest2).all Char.isDigit
        then some (c :: rest2) else none

/-- The lazy group `(.*?)` of `^(.*?)(?:[_\-\s]?)(\d{1,4})$`: try base
prefixes from shortest to longest, returning the first split whose tail
completes the match. -/
def splitSearch (base rest : List Char) : Option (List Char × List Char) :=
  match tailDigits rest with
  | some ds => some (base, ds)
  | none =>
      match rest with
      | [] => none
      | c :: rest2 => splitSearch (base ++ [c]) rest2

/-- Decimal value of a digit string, as Python `int` parses the captured
suffix (leading zeros allowed). -/
def digitsVal (ds : List Char) : Nat :=
  ds.foldl (fun acc c => acc * 10 + (c.toNat - 48)) 0

/-- Python `str.strip()` (whitespace both ends). -/
def pyStrip (l : List Char) : List Char :=
  ((l.dropWhile isPySpace).reverse.dropWhile isPySpace).reverse

/-- Python `str.rstrip("_-. ")`. -/
def rstripPunct (l : List Char) : List Char :=
  (l.reverse.dropWhile (fun c => c = '_' || c = '-' || c = '.' || c = ' ')).reverse

/-- Embedding of `split_name_series` (lines 615-625): match base plus
optional separator plus 1-4 trailing digits, trim the base, and discard
an empty base. -/
def split_name_series (nm : String) : Option (String × Nat) :=
  match splitSearch [] nm.data with
  | some (base, ds) =>
      let b := rstripPunct (pyStrip base)
      if b.isEmpty then none else some (String.mk b, digitsVal ds)
  | none => none

/-- Insert into the per-base series map, preserving first-seen base
order and appending to the base's list (the `setdefault(...).append`
at line 638). -/
def addSeries (acc : List (String × List (Nat × String))) (base : String)
    (p : Nat × String) : List (String × List (Nat × String)) :=
  match acc with
  | [] => [(base, [p])]
  | (b, l) :: rest =>
      if b == base then (b, l ++ [p]) :: rest
      else (b, l) :: addSeries rest base p

/-- Group the frame names of one atlas group by inferred base name
(lines 632-638), in first-seen order. -/
def buildSeries (names : List String) : List (String × List (Nat × String)) :=
  names.foldl
    (fun acc nm =>
      match split_name_series nm with
      | some (base, idx) => addSeries acc base (idx, nm)
      | none => acc)
    []

/-- Stable insertion of one element into a list sorted ascending by the
numeric suffix: the new element goes after every element with a smaller
or equal key, matching Python's stable `list.sort(key=...)`. -/
def insertByIdx (x : Nat × String) : List (Nat × String) → List (Nat × String)
  | [] => [x]
  | y :: ys => if y.1 ≤ x.1 then y :: insertByIdx x ys else x :: y :: ys

/-- Stable ascending sort by numeric suffix (line 641). -/
def sortByIdx (l : List (Nat × String)) : List (Nat × String) :=
  l.foldl (fun acc x => insertByIdx x acc) []

/-- The loop of lines 647-652 exactly as written: `consecutive` starts
at 1, is incremented on each adjacent pair that increases by exactly 1,
and on a gap is replaced by `max(consecutive, 1)` — which never resets
it. -/
def consecLoop (c : Nat) : List (Nat × String) → Nat
  | a :: b :: rest =>
      if b.1 = a.1 + 1 then consecLoop (c + 1) (b :: rest)
      else consecLoop (max c 1) (b :: rest)
  | _ => c

/-- The continuity score the code computes for a sorted group. -/
def consecCount (l : List (Nat × String)) : Nat :=
  consecLoop 1 l

/-- One heuristically inferred clip (the dict of lines 662-671). -/
structure AutoClip where
  name : String
  duration : Rat
  sample : Rat
  frames : List (Rat × String)
  source : String
deriving DecidableEq, Repr

/-- Build the inferred clip for a surviving group (lines 656-671):
keyframe `i` at time `i / 24`, duration `memberCount / 24`, sample 24. -/
def mkAutoClip (base : String) (sorted : List (Nat × String)) : AutoClip :=
  { name := base
    duration := (sorted.length : Rat) / 24
    sample := 24
    frames := (sorted.map (fun p => p.2)).enum.map
      (fun p => ((p.1 : Rat) / 24, p.2))
    source := "guessed" }

/-- The sequence-inference pass for the frame names of one atlas group
(lines 630-675): group by base, sort by suffix, keep groups with at
least 3 members whose continuity score is at least 3, and synthesize
one inferred clip per surviving group. -/
def inferAutoClips (names : List String) : List AutoClip :=
  (buildSeries names).filterMap
    (fun p =>
      let sorted := sortByIdx p.2
      if 3 ≤ sorted.length ∧ 3 ≤ consecCount sorted
      then some (mkAutoClip p.1 sorted) else none)

/-- Embedding of `safe_slug` (lines 40-41): every character outside
`[a-zA-Z0-9._-]` becomes an underscore. -/
def safe_slug (s : String) : String :=
  String.mk (s.data.map (fun c =>
    if c.isAlphanum || c = '.' || c = '_' || c = '-' then c else '_'))

/-- Decimal rendering of a natural number, as Python string formatting
produces it inside `f"{name}_{i}{ext}"`. -/
def decRepr (n : Nat) : List Char :=
  if h : n < 10 then [Char.ofNat (48 + n)]
  else decRepr (n / 10) ++ [Char.ofNat (48 + n % 10)]
termination_by n
decreasing_by exact Nat.div_lt_self (by omega) (by norm_num)

/-- The `i`-th probed audio collision candidate `f"{name}_{i}{ext}"`
(line 72). -/
def audioCand (name ext : String) (i : Nat) : String :=
  name ++ "_" ++ String.mk (decRepr i) ++ ext

/-- The collision-probing loop of `extract_audio` (lines 70-73),
modelling the output directory as the list of already-existing file
names.  `fuel` bounds the iterations; one more candidate than there are
existing files always suffices. -/
def probeLoop (existing : List String) (name ext : String) : Nat → Nat → String
  | 0, i => audioCand name ext i
  | fuel + 1, i =>
      if audioCand name ext i ∈ existing then probeLoop existing name ext fuel (i + 1)
      else audioCand name ext i

/-- The audio output path chosen by `extract_audio` (lines 69-73):
`name + ext` if unused, else the first unused `name_i + ext`. -/
def audio_target (existing : List String) (name ext : String) : String :=
  if (name ++ ext) ∈ existing then probeLoop existing name ext (existing.length + 1) 1
  else name ++ ext

/-- The output file name `extract_animations` writes one clip to (lines
320-321): `safe_slug(clip name or file base) + ".anim.json"`, with no
collision probing. -/
def anim_out_name (clipName fileBase : String) : String :=
  safe_slug (if clipName != "" then clipName else fileBase) ++ ".anim.json"

/-- The sequence of file names the per-clip write loop of
`extract_animations` (lines 319-323) targets for one document. -/
def animWriteTargets (clips : List Clip) (fileBase : String) : List String :=
  clips.map (fun c => anim_out_name c.name fileBase)

/-- Gate of `extract_animations` (lines 309-316): a document contributes
clips only when its raw text contains the literal substring
`"cc.AnimationClip"` and parses as JSON; `parsed` is the parse result
(`none` when `json.loads` raises). -/
def animClipsOfFile (txt : String) (parsed : Option JVal) : List Clip :=
  if "cc.AnimationClip".data <:+: txt.data then
    match parsed with
    | some d => parse_animation_clip d
    | none => []
  else []

/-- Spec-side definition, following the specification's words for the
identifier table: "the document's second top-level element when the
document root is a sequence and that element is itself a sequence of
strings; otherwise empty". -/
def specIdentifierTable (data : JVal) : List String :=
  match data with
  | .arr xs =>
      if 1 < xs.length then
        match xs.getD 1 .null with
        | .arr ys =>
            if ys.all isStr then
              ys.filterMap (fun v => match v with | .str s => some s | _ => none)
            else []
        | _ => []
      else []
  | _ => []

/-- Spec-side helper: length of the longest strictly-consecutive run of
suffix values in a suffix-sorted group ("compute the longest
strictly-consecutive run of suffix values within the sorted group"). -/
def specRunLoop (best cur : Nat) : List (Nat × String) → Nat
  | a :: b :: rest =>
      if b.1 = a.1 + 1 then specRunLoop best (cur + 1) (b :: rest)
      else specRunLoop (max best cur) 1 (b :: rest)
  | _ => max best cur

/-- Spec-side definition of the longest strictly-consecutive run. -/
def specLongestRun (l : List (Nat × String)) : Nat :=
  if l.isEmpty then 0 else specRunLoop 0 1 l

/-- C6: for every identifier table and every out-of-range index
(negative or at least the table length), keyframe identifier resolution
returns `none`; the lookup is a total function, so it never aborts. -/
theorem resolve_uuid_out_of_range (uuids : List String) (i : Int)
    (h : i < 0 ∨ (uuids.length : Int) ≤ i) :
    resolve_uuid uuids (some i) = none := by
  show (if 0 ≤ i ∧ i < (uuids.length : Int) then uuids.get? i.toNat else none) = none
  rw [if_neg]
  rintro ⟨h1, h2⟩
  omega

/-- Witness for C6 at the table `["tex_a"]` and index 5. -/
theorem resolve_uuid_out_of_range_witness :
    ((5 : Int) < 0 ∨ ((["tex_a"].length : Nat) : Int) ≤ 5) ∧
      resolve_uuid ["tex_a"] (some 5) = none :=
  ⟨by decide, resolve_uuid_out_of_range ["tex_a"] 5 (by decide)⟩

/-- C9: with a non-empty identifier list, an integer first texture-index
hint that is out of range makes the skeleton texture resolver fall back
to the identifier at index 0; it neither returns `none` nor skips the
bundle. -/
theorem skeleton_texture_fallback (uuids : List JVal) (ti : Int)
    (hne : uuids ≠ []) (hoor : ti < 0 ∨ (uuids.length : Int) ≤ ti) :
    skeleton_texture_uuid uuids (.arr [.int ti]) = some (uuids.headD .null) := by
  obtain ⟨u, rest, rfl⟩ := List.exists_cons_of_ne_nil hne
  show (if 0 ≤ ti ∧ ti < ((u :: rest).length : Int)
      then (u :: rest).get? ti.toNat else (u :: rest).get? 0) = some u
  rw [if_neg]
  · rfl
  · rintro ⟨h1, h2⟩
    omega

/-- Witness for C9 at the identifier list `[str "t"]` and hint 3. -/
theorem skeleton_texture_fallback_witness :
    ([JVal.str "t"] ≠ [] ∧ ((3 : Int) < 0 ∨ (([JVal.str "t"].length : Nat) : Int) ≤ 3)) ∧
      skeleton_texture_uuid [JVal.str "t"] (.arr [.int 3]) =
        some ([JVal.str "t"].headD .null) :=
  ⟨⟨by simp, by right; decide⟩,
    skeleton_texture_fallback [JVal.str "t"] 3 (by simp) (by right; decide)⟩

/-- C10: a document whose raw text lacks the literal substring
`"cc.AnimationClip"` contributes no explicit animation clip, whatever
its parsed tree contains. -/
theorem anim_requires_marker (txt : String) (parsed : Option JVal)
    (h : ¬ ("cc.AnimationClip".data <:+: txt.data)) :
    animClipsOfFile txt parsed = [] := by
  unfold animClipsOfFile
  rw [if_neg h]

/-- A minimal document that is itself a clip header. -/
def docHdr : JVal := .arr [.int 0, .str "run", .int 1, .int 24]

/-- Witness for C10: the text `"[0]"` lacks the marker, so no clip is
emitted even though the parsed tree `docHdr` matches the clip-header
pattern (its direct extraction is non-empty). -/
theorem anim_requires_marker_witness :
    ¬ ("cc.AnimationClip".data <:+: "[0]".data) ∧
      animClipsOfFile "[0]" (some docHdr) = [] ∧
      parse_animation_clip docHdr ≠ [] := by
  refine ⟨by decide, anim_requires_marker "[0]" (some docHdr) (by decide), ?_⟩
  intro h
  have hval : parse_animation_clip docHdr =
      [{ name := "run", duration := 1, sample := some 24, tracks := [] }] := by
    simp [parse_animation_clip, docHdr, fcV, fcL, uuidsOf, isClipHeader, headerClip,
          collectFrames, collectFramesL, keyframeOf, findIdx6, pyEqStr, pyIsNum,
          isStr, numVal, addTrack]
  rw [hval] at h
  simp at h

/-- The synthetic structural document of the round-trip property: clip
header `[0, "run", 1.5, 24]` followed by a nested `spriteFrame`
keyframe record referencing identifier index 0 of the identifier table
`["tex_a"]`. -/
def docRoundTrip : JVal :=
  .arr [.int 0, .arr [.str "tex_a"],
    .arr [.int 0, .str "run", .float (3/2), .int 24,
      .arr [.str "spriteFrame",
        .arr [.arr [.obj [("frame", .int 0)], .str "value", .int 6, .int 0]]]]]

/-- C4: the round-trip document is extracted as exactly one clip named
"run" with duration 1.5 (and sample rate 24), carrying exactly one
track whose single keyframe resolves to "tex_a". -/
theorem round_trip_clip :
    parse_animation_clip docRoundTrip =
      [{ name := "run", duration := 3/2, sample := some 24,
         tracks := [{ type := "spriteFrame",
                      frames := [{ time := some 0, uuid := some "tex_a",
                                   uuid_index := some 0 }] }] }] := by
  simp [parse_animation_clip, docRoundTrip, fcV, fcL, uuidsOf, isClipHeader,
        headerClip, collectFrames, collectFramesL, keyframeOf, findIdx6,
        resolve_uuid, objHas, objGet?, objGetD, pyEqStr, pyEqInt, pyIsNum,
        pyIsIntLike, intVal, numVal, isStr, addTrack]

/-- C1: evaluation of the sequence-inference step.  The two example
behaviours hold (glow_01/02/03/05 accepted for base "glow" with all
four members in sorted order; star1/star2 discarded), but the general
rule does not: for suffixes 1, 2, 4, 5 the longest strictly-consecutive
run is 2, yet the code emits an inferred clip, because the gap branch
`consecutive = max(consecutive, 1)` never resets the counter and so the
loop counts all adjacent increments instead of the longest run. -/
theorem sequence_inference_gap_bug :
    inferAutoClips ["glow_01", "glow_02", "glow_03", "glow_05"] =
      [mkAutoClip "glow"
        [(1, "glow_01"), (2, "glow_02"), (3, "glow_03"), (5, "glow_05")]] ∧
    (mkAutoClip "glow"
        [(1, "glow_01"), (2, "glow_02"), (3, "glow_03"), (5, "glow_05")]).duration
      = 1/6 ∧
    (mkAutoClip "glow"
        [(1, "glow_01"), (2, "glow_02"), (3, "glow_03"), (5, "glow_05")]).frames.map
        (fun p => p.2)
      = ["glow_01", "glow_02", "glow_03", "glow_05"] ∧
    inferAutoClips ["star1", "star2"] = [] ∧
    inferAutoClips ["a1", "a2", "a4", "a5"] =
      [mkAutoClip "a" [(1, "a1"), (2, "a2"), (4, "a4"), (5, "a5")]] ∧
    specLongestRun (sortByIdx [(1, "a1"), (2, "a2"), (4, "a4"), (5, "a5")]) = 2 :=
  ⟨rfl, by norm_num [mkAutoClip], rfl, rfl, rfl, rfl⟩

/-- C8 counterexample: an offset (or originalSize) encoded as a nested
pair-of-pairs makes `parse_pair` raise a conversion error — lines
437-440 have no nested branch, so line 440 computes `int(pair[0])`
where `pair[0]` is a list, a `TypeError` in Python.  Both nested shapes
(a pair of pairs, and a single wrapped pair) raise, so the claim that
both encodings normalize successfully for every field is false. -/
theorem parse_pair_nested_raises :
    parse_pair (.arr [.arr [.int 1, .int 2], .arr [.int 3, .int 4]]) =
      .error () ∧
    parse_pair (.arr [.arr [.int 3, .int 4]]) = .error () :=
  ⟨rfl, rfl⟩

/-- C8 amended: the rect field normalizes to the same `{x,y,w,h}` under
both the flat encoding (line 434) and the nested pair-of-pairs encoding
(line 433), for integer entries and for float entries (which `int()`
truncates toward zero); a pair field (offset or originalSize, lines
437-440) normalizes under the flat encoding only. -/
theorem rect_pair_normalization (x y w h : Int) (qx qy qw qh : Rat) :
    parse_rect (.arr [.int x, .int y, .int w, .int h]) = .ok ⟨x, y, w, h⟩ ∧
    parse_rect (.arr [.arr [.int x, .int y], .arr [.int w, .int h]]) =
      .ok ⟨x, y, w, h⟩ ∧
    parse_pair (.arr [.int x, .int y]) = .ok ⟨x, y⟩ ∧
    parse_rect (.arr [.float qx, .float qy, .float qw, .float qh]) =
      .ok ⟨ratTrunc qx, ratTrunc qy, ratTrunc qw, ratTrunc qh⟩ ∧
    parse_rect (.arr [.arr [.float qx, .float qy], .arr [.float qw, .float qh]]) =
      .ok ⟨ratTrunc qx, ratTrunc qy, ratTrunc qw, ratTrunc qh⟩ ∧
    parse_pair (.arr [.float qx, .float qy]) = .ok ⟨ratTrunc qx, ratTrunc qy⟩ :=
  ⟨rfl, rfl, rfl, rfl, rfl, rfl⟩

/-- A structural document whose second top-level element `["a", 5, "b"]`
contains a non-string entry, and whose clip holds a keyframe with
identifier index 1. -/
def docMixedTable : JVal :=
  .arr [.int 0, .arr [.str "a", .int 5, .str "b"],
    .arr [.int 0, .str "run", .int 1, .int 24,
      .arr [.str "spriteFrame",
        .arr [.arr [.obj [("frame", .int 0)], .str "value", .int 6, .int 1]]]]]

/-- C7 counterexample: for `docMixedTable` the specification prescribes
an empty table (its second element contains the non-string entry `5`),
but line 249 filters and keeps the string entries, producing
`["a", "b"]` — and the difference is observable in clip keyframe
resolution: the code resolves the keyframe's index 1 to `"b"`, whereas
the empty table the specification prescribes would resolve it to
`none`. -/
theorem identifier_table_mixed_counterexample :
    uuidsOf docMixedTable = ["a", "b"] ∧
    specIdentifierTable docMixedTable = [] ∧
    parse_animation_clip docMixedTable =
      [{ name := "run", duration := 1, sample := some 24,
         tracks := [{ type := "spriteFrame",
                      frames := [{ time := some 0, uuid := some "b",
                                   uuid_index := some 1 }] }] }] ∧
    resolve_uuid (specIdentifierTable docMixedTable) (some 1) = none := by
  refine ⟨rfl, rfl, ?_, rfl⟩
  simp [parse_animation_clip, docMixedTable, fcV, fcL, uuidsOf, isClipHeader,
        headerClip, collectFrames, collectFramesL, keyframeOf, findIdx6,
        resolve_uuid, objHas, objGet?, objGetD, pyEqStr, pyEqInt, pyIsNum,
        pyIsIntLike, intVal, numVal, isStr, addTrack]

/-- C7 amended: the code's identifier table (lines 247-249) agrees with
the specification's table except in one case — a second top-level
element that is a sequence containing a non-string entry, where the
code keeps the string entries (in order) while the specification
prescribes an empty table.  The disjunction is exhaustive over all
documents. -/
theorem identifier_table_amended (data : JVal) :
    uuidsOf data = specIdentifierTable data ∨
    (∃ xs ys, data = .arr xs ∧ 1 < xs.length ∧ xs.getD 1 .null = .arr ys ∧
      ys.all isStr = false ∧
      uuidsOf data =
        ys.filterMap (fun v => match v with | .str s => some s | _ => none) ∧
      specIdentifierTable data = []) := by
  match data with
  | .int _ => left; rfl
  | .float _ => left; rfl
  | .bool _ => left; rfl
  | .str _ => left; rfl
  | .null => left; rfl
  | .obj _ => left; rfl
  | .arr xs =>
    by_cases hlen : 1 < xs.length
    · match hsnd : xs.getD 1 .null with
      | .arr ys =>
        by_cases hstr : ys.all isStr = true
        · left
          simp only [uuidsOf, specIdentifierTable]
          rw [if_pos hlen, if_pos hlen, hsnd]
          simp [hstr]
        · right
          refine ⟨xs, ys, rfl, hlen, hsnd, by simpa using hstr, ?_, ?_⟩
          · simp only [uuidsOf]
            rw [if_pos hlen, hsnd]
          · simp only [specIdentifierTable]
            rw [if_pos hlen, hsnd]
            simp [hstr]
      | .int _ =>
        left
        simp only [uuidsOf, specIdentifierTable]
        rw [if_pos hlen, if_pos hlen, hsnd]
      | .float _ =>
        left
        simp only [uuidsOf, specIdentifierTable]
        rw [if_pos hlen, if_pos hlen, hsnd]
      | .bool _ =>
        left
        simp only [uuidsOf, specIdentifierTable]
        rw [if_pos hlen, if_pos hlen, hsnd]
      | .str _ =>
        left
        simp only [uuidsOf, specIdentifierTable]
        rw [if_pos hlen, if_pos hlen, hsnd]
      | .null =>
        left
        simp only [uuidsOf, specIdentifierTable]
        rw [if_pos hlen, if_pos hlen, hsnd]
      | .obj _ =>
        left
        simp only [uuidsOf, specIdentifierTable]
        rw [if_pos hlen, if_pos hlen, hsnd]
    · left
      simp only [uuidsOf, specIdentifierTable]
      rw [if_neg hlen, if_neg hlen]

/-- A concrete lossy-VP8 WEBP buffer whose 14-bit width field decodes
to 5 and height field to 7. -/
def vp8Example : List Nat :=
  [82, 73, 70, 70, 36, 0, 0, 0, 87, 69, 66, 80,
   86, 80, 56, 32, 10, 0, 0, 0, 0, 0, 0, 157, 1, 42, 5, 0, 7, 0]

/-- C5 counterexample: for the lossy `VP8 ` sub-chunk the reader
reports the decoded field values themselves (5, 7), not the decoded
values plus one (6, 8); the "plus one" behaviour is not common to all
variants. -/
theorem webp_vp8_no_plus_one :
    read_webp_size vp8Example = some (5, 7) ∧
      read_webp_size vp8Example ≠ some (5 + 1, 7 + 1) := by
  refine ⟨by decide, by decide⟩

/-- A parametric single-chunk VP8X buffer with 24-bit little-endian
width-minus-1 bytes `a0 a1 a2` and height-minus-1 bytes `b0 b1 b2`. -/
def vp8xBuf (a0 a1 a2 b0 b1 b2 : Nat) : List Nat :=
  [82, 73, 70, 70, 36, 0, 0, 0, 87, 69, 66, 80,
   86, 80, 56, 88, 10, 0, 0, 0, 0, 0, 0, 0, a0, a1, a2, b0, b1, b2]

/-- A parametric single-chunk lossy VP8 buffer with 14-bit width bytes
`w0 w1` and height bytes `h0 h1` after the `9D 01 2A` start code. -/
def vp8Buf (w0 w1 h0 h1 : Nat) : List Nat :=
  [82, 73, 70, 70, 36, 0, 0, 0, 87, 69, 66, 80,
   86, 80, 56, 32, 10, 0, 0, 0, 0, 0, 0, 157, 1, 42, w0, w1, h0, h1]

/-- A parametric single-chunk VP8L buffer with packed dimension bytes
`c1 c2 c3 c4` after the `0x2F` signature. -/
def vp8lBuf (c1 c2 c3 c4 : Nat) : List Nat :=
  [82, 73, 70, 70, 36, 0, 0, 0, 87, 69, 66, 80,
   86, 80, 56, 76, 5, 0, 0, 0, 47, c1, c2, c3, c4]

/-- C5 amended: the VP8X and VP8L variants report the decoded field
value plus one, but the lossy VP8 variant reports the decoded (masked)
field value itself. -/
theorem webp_size_by_variant (a0 a1 a2 b0 b1 b2 w0 w1 h0 h1 c1 c2 c3 c4 : Nat)
    (ha : a0 < 256 ∧ a1 < 256 ∧ a2 < 256 ∧ b0 < 256 ∧ b1 < 256 ∧ b2 < 256)
    (hw : w0 < 256 ∧ w1 < 256 ∧ h0 < 256 ∧ h1 < 256)
    (hc : c1 < 256 ∧ c2 < 256 ∧ c3 < 256 ∧ c4 < 256) :
    read_webp_size (vp8xBuf a0 a1 a2 b0 b1 b2) =
      some ((a0 + 256 * a1 + 65536 * a2) + 1, (b0 + 256 * b1 + 65536 * b2) + 1) ∧
    read_webp_size (vp8Buf w0 w1 h0 h1) =
      some ((w0 + 256 * w1) % 16384, (h0 + 256 * h1) % 16384) ∧
    read_webp_size (vp8lBuf c1 c2 c3 c4) =
      some (c1 + (c2 % 64) * 256 + 1, c2 / 64 + c3 * 4 + (c4 % 4) * 1024 + 1) := by
  refine ⟨?_, ?_, ?_⟩
  · simp [read_webp_size, vp8xBuf, webpChunks, sliceBytes, fromLE,
          riffTag, webpTag, vp8xTag, vp8Tag, vp8lTag]
    omega
  · simp [read_webp_size, vp8Buf, webpChunks, sliceBytes, fromLE,
          riffTag, webpTag, vp8xTag, vp8Tag, vp8lTag]
  · simp [read_webp_size, vp8lBuf, webpChunks, sliceBytes, fromLE,
          riffTag, webpTag, vp8xTag, vp8Tag, vp8lTag]

/-- Witness for C5 amended at byte values 3, 1, 0 / 2, 1, 0 (VP8X),
5, 0 / 7, 0 (VP8) and 9, 1, 1, 1 (VP8L). -/
theorem webp_size_by_variant_witness :
    read_webp_size (vp8xBuf 3 1 0 2 1 0) = some ((3 + 256 * 1 + 65536 * 0) + 1,
      (2 + 256 * 1 + 65536 * 0) + 1) ∧
    read_webp_size (vp8Buf 5 0 7 0) = some ((5 + 256 * 0) % 16384,
      (7 + 256 * 0) % 16384) ∧
    read_webp_size (vp8lBuf 9 1 1 1) = some (9 + (1 % 64) * 256 + 1,
      1 / 64 + 1 * 4 + (1 % 4) * 1024 + 1) :=
  webp_size_by_variant 3 1 0 2 1 0 5 0 7 0 9 1 1 1
    (by decide) (by decide) (by decide)

/-- Appending one digit character multiplies the accumulated value by
ten. -/
theorem digitsVal_append_singleton (l : List Char) (c : Char) :
    digitsVal (l ++ [c]) = digitsVal l * 10 + (c.toNat - 48) := by
  simp [digitsVal, List.foldl_append]

/-- Decimal digit characters decode to their digit value. -/
theorem charOfNat_digit_toNat : ∀ m, m < 10 → (Char.ofNat (48 + m)).toNat = 48 + m := by
  decide

/-- The decimal rendering round-trips through its value. -/
theorem decRepr_val (n : Nat) : digitsVal (decRepr n) = n := by
  induction n using Nat.strong_induction_on with
  | _ n ih =>
    by_cases h : n < 10
    · rw [decRepr, dif_pos h]
      simp [digitsVal, charOfNat_digit_toNat n h]
    · rw [decRepr, dif_neg h]
      rw [digitsVal_append_singleton,
        ih (n / 10) (Nat.div_lt_self (by omega) (by norm_num)),
        charOfNat_digit_toNat (n % 10) (Nat.mod_lt _ (by norm_num))]
      omega

/-- Decimal rendering is injective. -/
theorem decRepr_injective : Function.Injective decRepr := by
  intro a b hab
  have ha := decRepr_val a
  rw [hab, decRepr_val b] at ha
  exact ha.symm

/-- The probed audio candidates are pairwise distinct file names. -/
theorem audioCand_injective (name ext : String) :
    Function.Injective (audioCand name ext) := by
  intro a b hab
  apply decRepr_injective
  have hd := congrArg String.data hab
  simp only [audioCand, String.data_append] at hd
  have h1 := List.append_cancel_right hd
  exact List.append_cancel_left h1

/-- If some candidate within the fuel window is unused, the probing
loop returns an unused name. -/
theorem probeLoop_not_mem (existing : List String) (name ext : String) :
    ∀ fuel i, (∃ j, i ≤ j ∧ j < i + fuel ∧ audioCand name ext j ∉ existing) →
      probeLoop existing name ext fuel i ∉ existing := by
  intro fuel
  induction fuel with
  | zero =>
    rintro i ⟨j, h1, h2, h3⟩
    omega
  | succ f ih =>
    rintro i ⟨j, h1, h2, h3⟩
    rw [probeLoop]
    by_cases hmem : audioCand name ext i ∈ existing
    · rw [if_pos hmem]
      apply ih (i + 1)
      refine ⟨j, ?_, by omega, h3⟩
      rcases Nat.eq_or_lt_of_le h1 with heq | hlt
      · exact absurd (heq ▸ h3) (fun hnot => hnot hmem)
      · omega
    · rw [if_neg hmem]
      exact hmem

/-- C3 amended: the audio materializer never targets an existing file
name — the only output category with collision probing.  The chosen
path is the original name if unused, else the first unused numbered
sibling `name_i + ext`. -/
theorem audio_no_overwrite (existing : List String) (name ext : String) :
    audio_target existing name ext ∉ existing := by
  unfold audio_target
  by_cases h0 : (name ++ ext) ∈ existing
  · rw [if_pos h0]
    apply probeLoop_not_mem
    by_contra hall
    push_neg at hall
    have hsub : (List.range' 1 (existing.length + 1)).map (audioCand name ext)
        ⊆ existing := by
      intro x hx
      obtain ⟨j, hj, rfl⟩ := List.mem_map.mp hx
      obtain ⟨hj1, hj2⟩ := List.mem_range'_1.mp hj
      exact hall j hj1 (by omega)
    have hnd : ((List.range' 1 (existing.length + 1)).map
        (audioCand name ext)).Nodup :=
      (List.nodup_range' 1 (existing.length + 1)).map (audioCand_injective name ext)
    have hle := (hnd.subperm hsub).length_le
    rw [List.length_map, List.length_range'] at hle
    omega
  · rw [if_neg h0]
    exact h0

/-- A document containing two identical clip headers named "run". -/
def docDupClips : JVal :=
  .arr [.int 0, .arr [],
    .arr [.int 0, .str "run", .int 1, .int 24],
    .arr [.int 0, .str "run", .int 1, .int 24]]

/-- C3 counterexample: the animation-clip writer derives both output
paths from the clip name alone, so two clips named "run" in one
document are written to the same file `run.anim.json` — the second
write silently overwrites the first instead of probing a numbered
sibling.  Collision probing exists only for the audio category. -/
theorem anim_overwrite_counterexample :
    animWriteTargets (parse_animation_clip docDupClips) "file" =
      ["run.anim.json", "run.anim.json"] ∧
    ¬ (animWriteTargets (parse_animation_clip docDupClips) "file").Nodup := by
  have hval : animWriteTargets (parse_animation_clip docDupClips) "file" =
      ["run.anim.json", "run.anim.json"] := by
    simp [animWriteTargets, anim_out_name, safe_slug, parse_animation_clip,
          docDupClips, fcV, fcL, uuidsOf, isClipHeader, headerClip,
          collectFrames, collectFramesL, keyframeOf, findIdx6, pyEqStr,
          pyIsNum, isStr, numVal, addTrack]
  refine ⟨hval, ?_⟩
  rw [hval]
  decide

/-- Deduplication raises exactly when some collected frame's name is
unhashable (the membership test at line 548 hashes the key). -/
theorem dedupAux_error_iff (l : List PyFrame) : ∀ seen,
    (dedupAux seen l = .error () ↔ ∃ fr ∈ l, hashableName fr.name = false) := by
  induction l with
  | nil => intro seen; simp [dedupAux]
  | cons fr rest ih =>
    intro seen
    by_cases h : hashableName fr.name
    · by_cases hmem : seen.any (fun s => pyKeyEq s.name fr.name)
      · simp [dedupAux, h, hmem, ih]
      · simp [dedupAux, h, hmem, ih]
    · simp only [Bool.not_eq_true] at h
      simp [dedupAux, h]

/-- With every name hashable, deduplication is the total keep-first
filter. -/
theorem dedupAux_ok (l : List PyFrame) : ∀ seen,
    (∀ fr ∈ l, hashableName fr.name = true) →
      dedupAux seen l = .ok (keepFirstAux seen l) := by
  induction l with
  | nil => intro seen _; rfl
  | cons fr rest ih =>
    intro seen hall
    have hfr : hashableName fr.name = true := hall fr (by simp)
    have hrest : ∀ f ∈ rest, hashableName f.name = true :=
      fun f hf => hall f (by simp [hf])
    by_cases hmem : seen.any (fun s => pyKeyEq s.name fr.name)
    · simp [dedupAux, keepFirstAux, hfr, hmem, ih _ hrest]
    · simp [dedupAux, keepFirstAux, hfr, hmem, ih _ hrest]

/-- Plist emission raises exactly when some kept frame's normalization
raises. -/
theorem emit_frames_error_iff (l : List PyFrame) :
    emit_frames l = .error () ↔ ∃ fr ∈ l, emit_frame fr = .error () := by
  induction l with
  | nil => simp [emit_frames]
  | cons fr rest ih =>
    cases hfr : emit_frame fr with
    | error e =>
      cases e
      simp [emit_frames, hfr]
    | ok x =>
      cases hrest : emit_frames rest with
      | error e =>
        cases e
        simp [emit_frames, hfr, hrest, ← ih]
      | ok xs =>
        simp [emit_frames, hfr, hrest, ← ih]

/-- The auto-animation name scan raises exactly when some kept frame's
name is not a string. -/
theorem autoNamesOk_error_iff (l : List PyFrame) :
    autoNamesOk l = .error () ↔ ∃ fr ∈ l, isStr fr.name = false := by
  induction l with
  | nil => simp [autoNamesOk]
  | cons fr rest ih =>
    cases hn : fr.name <;> simp [autoNamesOk, hn, isStr, ih]

/-- An import document carrying one sprite frame whose `rect` is a
truthy but malformed one-element list. -/
def docBadRect : JVal :=
  .arr [.int 0, .arr [.str "aabbccdd"],
    .obj [("name", .str "f"), ("rect", .arr [.int 1]),
          ("originalSize", .arr [.int 3, .int 4])]]

/-- C2 counterexample: a single malformed collected item is not
absorbed — the frame's one-element `rect` raises an uncaught IndexError
in `parse_rect` during atlas emission (`int(rect[1])`), aborting the
run, which contradicts the claim that only the missing-subdirectory
check aborts. -/
theorem process_abort_counterexample :
    process_import_doc docBadRect = .error () := by
  have hg : guess_texture_uuid_compressed docBadRect = some "aabbccdd" := rfl
  have hf : extract_sprite_frames docBadRect =
      [{ name := .str "f", rotated := false, rect := .arr [.int 1],
         offset := .arr [.int 0, .int 0],
         originalSize := .arr [.int 3, .int 4] }] := by
    simp [docBadRect, extract_sprite_frames, esfL, esfO, truthy, objGetD, objGet?]
  have hded : dedupFrames
      [{ name := .str "f", rotated := false, rect := .arr [.int 1],
         offset := .arr [.int 0, .int 0],
         originalSize := .arr [.int 3, .int 4] }] =
      .ok [{ name := .str "f", rotated := false, rect := .arr [.int 1],
             offset := .arr [.int 0, .int 0],
             originalSize := .arr [.int 3, .int 4] }] := rfl
  have hemit : emit_frames
      [{ name := .str "f", rotated := false, rect := .arr [.int 1],
         offset := .arr [.int 0, .int 0],
         originalSize := .arr [.int 3, .int 4] }] = .error () := rfl
  simp [process_import_doc, hg, hf, hded, hemit]

/-- C2 amended: the scanning stage absorbs unreadable documents and
pattern mismatches, but the sprite-frame path of the batch for one
document aborts the run exactly when some collected frame is malformed:
an unhashable name, a kept frame whose rect/offset/originalSize fails
integer normalization, or a kept frame whose name is not a string. -/
theorem process_import_doc_error_iff (doc : JVal) :
    process_import_doc doc = .error () ↔
      ∃ u, guess_texture_uuid_compressed doc = some u ∧ u ≠ "" ∧
        extract_sprite_frames doc ≠ [] ∧
        ((∃ fr ∈ extract_sprite_frames doc, hashableName fr.name = false) ∨
          ∃ fr ∈ keepFirst (extract_sprite_frames doc),
            emit_frame fr = .error () ∨ isStr fr.name = false) := by
  cases hg : guess_texture_uuid_compressed doc with
  | none => simp [process_import_doc, hg]
  | some u =>
    by_cases hu : u = ""
    · subst hu
      simp [process_import_doc, hg]
    · by_cases hf : extract_sprite_frames doc = []
      · simp [process_import_doc, hg, hf]
      · have hgate : (u != "" && !(extract_sprite_frames doc).isEmpty) = true := by
          simp [hu, hf]
        cases hd : dedupFrames (extract_sprite_frames doc) with
        | error e =>
          cases e
          have hex := (dedupAux_error_iff (extract_sprite_frames doc) []).mp hd
          simp [process_import_doc, hg, hgate, hd, hu, hf]
          exact Or.inl hex
        | ok ded =>
          have hall : ∀ fr ∈ extract_sprite_frames doc,
              hashableName fr.name = true := by
            intro fr hfr
            by_contra hc
            simp only [Bool.not_eq_true] at hc
            have herr := (dedupAux_error_iff (extract_sprite_frames doc) []).mpr
              ⟨fr, hfr, hc⟩
            rw [show dedupFrames (extract_sprite_frames doc) =
              dedupAux [] (extract_sprite_frames doc) from rfl, herr] at hd
            cases hd
          have hded : ded = keepFirst (extract_sprite_frames doc) := by
            have h2 : (Except.ok ded : Except Unit (List PyFrame)) =
                .ok (keepFirst (extract_sprite_frames doc)) := by
              rw [← hd]
              exact dedupAux_ok _ [] hall
            exact Except.ok.inj h2
          have hnone : ¬ ∃ fr ∈ extract_sprite_frames doc,
              hashableName fr.name = false := by
            rintro ⟨fr, hfr, hc⟩
            rw [hall fr hfr] at hc
            cases hc
          simp only [process_import_doc, hg, hgate, hd, if_true]
          rw [← hded]
          cases he : emit_frames ded with
          | error e =>
            cases e
            obtain ⟨fr, hin, herr⟩ := (emit_frames_error_iff ded).mp he
            simp [he, hu, hf, hnone]
            exact ⟨fr, hin, Or.inl herr⟩
          | ok es =>
            cases ha : autoNamesOk ded with
            | error e =>
              cases e
              obtain ⟨fr, hin, hstr⟩ := (autoNamesOk_error_iff ded).mp ha
              simp [he, ha, hu, hf, hnone]
              exact ⟨fr, hin, Or.inr hstr⟩
            | ok u2 =>
              simp [he, ha, hu, hf, hnone]
              intro fr hin
              constructor
              · intro hbad
                have hcontr := (emit_frames_error_iff ded).mpr ⟨fr, hin, hbad⟩
                rw [hcontr] at he
                cases he
              · by_contra hbad
                simp only [Bool.not_eq_true] at hbad
                have hcontr := (autoNamesOk_error_iff ded).mpr ⟨fr, hin, hbad⟩
                rw [hcontr] at ha
                cases ha
